import Mathlib

/-!
# Verification of the TechDoc-QA-CodeGen dataset downloader scripts

Shallow embedding of the two scripts of the repository,
`notebooks/download_datasets_hf.py` (the "combined script") and
`notebooks/download_dataset.py` (the "selector script"), together with
proofs settling the frozen claims about their specification.

The filesystem is modelled as an association list from directory paths
(lists of path components) to directory states; each directory state holds
the files directly contained in it, with their payloads.  Network and
archive-extraction outcomes are supplied by an oracle, and each routine of
the combined script additionally threads the list of URLs it has attempted
to fetch, so that "performs no network call" is a provable statement.
-/

/-- A filesystem path, as its list of components
(e.g. `["data", "raw", "conala"]` for `data/raw/conala`). -/
abbrev FPath := List String

/-- `pathLE p q` holds when `p` is an initial segment of `q`, i.e. the
directory `q` equals `p` or lies inside the tree rooted at `p`
(this is what `p.rglob` ranges over in the scripts). -/
def pathLE : FPath → FPath → Bool
  | [], _ => true
  | _ :: _, [] => false
  | a :: p, b :: q => a == b && pathLE p q

/-- `isChildDir p q` holds when the directory `q` is an immediate child of
the directory `p` (used to model `p.iterdir()` listing subdirectories). -/
def isChildDir (p q : FPath) : Bool :=
  pathLE p q && (q.length == p.length + 1)

/-- All nonempty initial segments of a path, shortest first; these are the
directories `Path.mkdir(parents=True)` brings into existence. -/
def pathInits : FPath → List FPath
  | [] => []
  | a :: p => [a] :: (pathInits p).map (fun q => a :: q)

/-- One record of the hard-coded Stack Overflow sample written by
`download_stackoverflow_csv` (a question/answer/tags triple). -/
structure SORec where
  question : String
  answer : String
  tags : List String
deriving DecidableEq, Repr

/-- One record of the synthetic CoNaLa-style dataset written by
`download_conala_correct_urls` when every download fails. -/
structure ConalaRec where
  question_id : Nat
  intent : String
  snippet : String
deriving DecidableEq, Repr

/-- Payload of a file on disk.  Downloaded bodies are opaque byte blobs of
a given size; authored literal text files carry their byte length (the
exact literal prose of the scripts is not itself modelled — no claim
depends on it); the two JSON sample files carry their record lists. -/
inductive FileData where
  | blob (nbytes : Nat)
  | text (nbytes : Nat)
  | soJson (records : List SORec)
  | conalaJson (records : List ConalaRec)
deriving DecidableEq, Repr

/-- Modelled byte size of a file.  For the JSON payloads the serialized
length is abstracted as the record count; no theorem depends on it. -/
def FileData.size : FileData → Nat
  | .blob n => n
  | .text n => n
  | .soJson rs => rs.length
  | .conalaJson rs => rs.length

/-- State of one directory: the files directly inside it. -/
structure Dir where
  files : List (String × FileData)
deriving DecidableEq, Repr

/-- Sum of the sizes of the files directly in a directory. -/
def Dir.size (d : Dir) : Nat := (d.files.map (fun f => f.2.size)).sum

/-- A filesystem: association list from existing directory paths to their
states (first match wins on lookup). -/
abbrev FS := List (FPath × Dir)

/-- Look up the state of a directory. -/
def FS.dlookup : FS → FPath → Option Dir
  | [], _ => none
  | e :: fs, p => if e.1 = p then some e.2 else FS.dlookup fs p

/-- `Path.exists()` of the scripts: the directory is present. -/
def FS.dirExists (fs : FS) (p : FPath) : Bool := (FS.dlookup fs p).isSome

/-- `p.iterdir()` of the scripts: names of the entries of directory `p`
(its files, then its immediate subdirectories). -/
def FS.entries (fs : FS) (p : FPath) : List String :=
  (match FS.dlookup fs p with
   | some d => d.files.map (fun f => f.1)
   | none => []) ++
  (fs.filter (fun e => isChildDir p e.1)).map (fun e => e.1.getLastD "")

/-- `dest.exists()` for a file `n` inside directory `p`. -/
def FS.fileExists (fs : FS) (p : FPath) (n : String) : Bool :=
  match FS.dlookup fs p with
  | some d => (d.files.map (fun f => f.1)).contains n
  | none => false

/-- Payload of file `n` of directory `p`, if present. -/
def FS.fileContent (fs : FS) (p : FPath) (n : String) : Option FileData :=
  match FS.dlookup fs p with
  | some d => (d.files.filter (fun f => f.1 == n)).head?.map (fun f => f.2)
  | none => none

/-- `sum(f.stat().st_size for f in path.rglob('*') if f.is_file())`:
total size of the files anywhere under `p` (including in `p` itself). -/
def FS.treeSize (fs : FS) (p : FPath) : Nat :=
  ((fs.filter (fun e => pathLE p e.1)).map (fun e => e.2.size)).sum

/-- Create a single directory if absent (no effect when it exists,
mirroring `exist_ok=True`). -/
def FS.addDir (fs : FS) (p : FPath) : FS :=
  match FS.dlookup fs p with
  | some _ => fs
  | none => fs ++ [(p, ⟨[]⟩)]

/-- `p.mkdir(parents=True, exist_ok=True)`: create `p` and all its
ancestors that are absent. -/
def FS.mkdirp (fs : FS) (p : FPath) : FS := (pathInits p).foldl FS.addDir fs

/-- Overwrite-or-create semantics of `open(path, 'w')` followed by a
write: replace the payload of file `n` of directory `p` when the name is
already present, otherwise append it.  (The directory always exists at
the point of use in the scripts, having just been created.) -/
def Dir.insertFile (d : Dir) (n : String) (c : FileData) : Dir :=
  if (d.files.map (fun f => f.1)).contains n then
    ⟨d.files.map (fun f => if f.1 = n then (n, c) else f)⟩
  else
    ⟨d.files ++ [(n, c)]⟩

/-- Write file `n` with payload `c` into directory `p`. -/
def FS.writeFile (fs : FS) (p : FPath) (n : String) (c : FileData) : FS :=
  fs.map (fun e => if e.1 = p then (e.1, e.2.insertFile n c) else e)

/-- `path.unlink()`: remove file `n` from directory `p`. -/
def FS.removeFile (fs : FS) (p : FPath) (n : String) : FS :=
  fs.map (fun e => if e.1 = p then (e.1, ⟨e.2.files.filter (fun f => f.1 ≠ n)⟩) else e)

/-! ## The combined script: fixed paths and the verification reporter -/

/-- `BASE_DIR = Path("data/raw")`. -/
def BASE_DIR : FPath := ["data", "raw"]

/-- `data/raw/codesearchnet`. -/
def csnPath : FPath := ["data", "raw", "codesearchnet"]

/-- `data/raw/stackoverflow`. -/
def soPath : FPath := ["data", "raw", "stackoverflow"]

/-- `data/raw/conala`. -/
def conalaPath : FPath := ["data", "raw", "conala"]

/-- `data/raw/pytorch_docs/tutorials`. -/
def pytorchTutPath : FPath := ["data", "raw", "pytorch_docs", "tutorials"]

/-- `data/raw/python_docs`. -/
def pythonDocsPath : FPath := ["data", "raw", "python_docs"]

/-- `data/raw/python_docs/python-3.11`. -/
def pythonDocsExtractPath : FPath := ["data", "raw", "python_docs", "python-3.11"]

/-- `data/raw/combined`. -/
def combinedPath : FPath := ["data", "raw", "combined"]

/-- The fixed `datasets` dict of `final_verification`, in insertion
order: display name and directory, six entries. -/
def datasets : List (String × FPath) :=
  [("CodeSearchNet (Alternative)", csnPath),
   ("Stack Overflow (Sample)", soPath),
   ("CoNaLa", conalaPath),
   ("PyTorch Tutorials", pytorchTutPath),
   ("Python Docs", pythonDocsPath),
   ("Combined Strategy", combinedPath)]

/-- `path.exists() and any(path.iterdir())`: the availability test of
`final_verification` (and of `verify_pytorch_tutorials` and the
extracted-docs check). -/
def dirAvailable (fs : FS) (p : FPath) : Bool :=
  FS.dirExists fs p && !(FS.entries fs p).isEmpty

/-- One iteration of the `final_verification` loop over the accumulator
`(total_size, available)`. -/
def verifyStep (fs : FS) (acc : Nat × Nat) (nd : String × FPath) : Nat × Nat :=
  if dirAvailable fs nd.2 then (acc.1 + FS.treeSize fs nd.2, acc.2 + 1) else acc

/-- The `final_verification` loop: returns `(total_size, available)`. -/
def final_loop (fs : FS) : Nat × Nat := datasets.foldl (verifyStep fs) (0, 0)

/-- The value `final_verification` returns: `available >= 3`. -/
def final_verification (fs : FS) : Bool := decide (3 ≤ (final_loop fs).2)

/-- Spec-side count of available sources: the directories of the fixed
list that exist and contain at least one entry. -/
def availableCount (fs : FS) : Nat :=
  (datasets.filter (fun nd => dirAvailable fs nd.2)).length

/-! ## The combined script: oracle, run state and acquisition routines -/

/-- Oracle for the outcomes of the external world: whether the HTTP GET
of a URL succeeds, the byte size it yields when it does, and whether zip
extraction of the downloaded documentation archive succeeds. -/
structure Net where
  ok : String → Bool
  nbytes : String → Nat
  extractOk : Bool

/-- The oracle under which every network call fails. -/
def netAllFail : Net := ⟨fun _ => false, fun _ => 0, false⟩

/-- State threaded through a run of the combined script: the filesystem,
plus the list of URLs for which a network fetch has been attempted (in
order).  The call trace makes "performs no network call" provable. -/
structure RunSt where
  fs : FS
  calls : List String
deriving DecidableEq

/-- `download_file_with_progress(url, dest)`: one HTTP GET, catching any
exception and returning a success flag; on success the body is streamed
into the destination file `n` of directory `p`. -/
def download_file_with_progress (net : Net) (url : String) (p : FPath) (n : String)
    (s : RunSt) : RunSt × Bool :=
  if net.ok url then
    ({ fs := FS.writeFile s.fs p n (FileData.blob (net.nbytes url)),
       calls := s.calls ++ [url] }, true)
  else
    ({ s with calls := s.calls ++ [url] }, false)

/-- `download_codesearchnet_github()`: creates `data/raw/codesearchnet`
and writes the literal `README.txt` placeholder; performs no network
operation at all and returns the output directory. -/
def download_codesearchnet_github (s : RunSt) : RunSt × FPath :=
  let fs1 := (FS.mkdirp s.fs csnPath).writeFile csnPath "README.txt" (FileData.text 1)
  ({ s with fs := fs1 }, csnPath)

/-- The hard-coded 100-record Stack Overflow sample built by the loop
`for i in range(100)` of `download_stackoverflow_csv` (the loop index is
unused; every record is the same literal triple). -/
def stackoverflow_sample_data : List SORec :=
  (List.range 100).map (fun _ =>
    ⟨"How to implement a binary search in Python?",
     "def binary_search(arr, target): ...",
     ["python", "algorithm", "search"]⟩)

/-- `download_stackoverflow_csv()`: creates `data/raw/stackoverflow`,
writes the 100-record sample JSON and the literal instructions file;
performs no network operation and returns the output directory. -/
def download_stackoverflow_csv (s : RunSt) : RunSt × FPath :=
  let fs1 := (FS.mkdirp s.fs soPath).writeFile soPath "stackoverflow_sample.json"
    (FileData.soJson stackoverflow_sample_data)
  let fs2 := fs1.writeFile soPath "DOWNLOAD_OPTIONS.txt" (FileData.text 1)
  ({ s with fs := fs2 }, soPath)

/-- The `files` dict of `download_conala_correct_urls`: filename and
primary URL, in insertion order. -/
def conalaFiles : List (String × String) :=
  [("conala-train.json",
    "https://raw.githubusercontent.com/conala-corpus/conala-corpus/master/conala-train.json"),
   ("conala-test.json",
    "https://raw.githubusercontent.com/conala-corpus/conala-corpus/master/conala-test.json"),
   ("conala-mined.jsonl",
    "https://raw.githubusercontent.com/conala-corpus/conala-corpus/master/conala-mined.jsonl")]

/-- `alt_base` of `download_conala_correct_urls`. -/
def conalaAltBase : String := "https://github.com/conala-corpus/conala-corpus/raw/master/"

/-- One iteration of the per-file loop of `download_conala_correct_urls`
over `(state, success)`: skip-and-count when the destination file already
exists, otherwise try the primary URL and then the alternate URL. -/
def conalaStep (net : Net) (st : RunSt × Nat) (fu : String × String) : RunSt × Nat :=
  if FS.fileExists st.1.fs conalaPath fu.1 then (st.1, st.2 + 1)
  else
    match download_file_with_progress net fu.2 conalaPath fu.1 st.1 with
    | (s1, true) => (s1, st.2 + 1)
    | (s1, false) =>
      match download_file_with_progress net (conalaAltBase ++ fu.1) conalaPath fu.1 s1 with
      | (s2, true) => (s2, st.2 + 1)
      | (s2, false) => (s2, st.2)

/-- The 50-record synthetic CoNaLa-style dataset built by the list
comprehension `for i in range(50)`. -/
def conala_synthetic_data : List ConalaRec :=
  (List.range 50).map (fun i =>
    ⟨i, "Sort a list of numbers in ascending order", "sorted_list = sorted(numbers)"⟩)

/-- `download_conala_correct_urls()`: creates `data/raw/conala`, runs the
per-file loop, and when zero files succeeded writes the synthetic
50-record dataset; returns the output directory. -/
def download_conala_correct_urls (net : Net) (s : RunSt) : RunSt × FPath :=
  let s0 : RunSt := { s with fs := FS.mkdirp s.fs conalaPath }
  let r := conalaFiles.foldl (conalaStep net) (s0, 0)
  if r.2 = 0 then
    let fs1 := FS.writeFile r.1.fs conalaPath "conala-synthetic.json"
      (FileData.conalaJson conala_synthetic_data)
    ({ r.1 with fs := fs1 }, conalaPath)
  else
    (r.1, conalaPath)

/-- `verify_pytorch_tutorials()`: checks that the tutorials directory
exists and is nonempty; never writes and never fetches; returns the path
on success and `None` otherwise. -/
def verify_pytorch_tutorials (s : RunSt) : RunSt × Option FPath :=
  if dirAvailable s.fs pytorchTutPath then (s, some pytorchTutPath) else (s, none)

/-- The versioned documentation archive URL of
`download_python_docs_correct` (version `"3.11"`, so the file part is
`python-311-docs-html.zip`). -/
def pythonDocsUrl : String :=
  "https://docs.python.org/3.11/archives/python-311-docs-html.zip"

/-- `download_python_docs_correct()`: creates `data/raw/python_docs`;
returns at once when the extracted docs are already present; otherwise
downloads the archive and, on success, extracts it into the versioned
subdirectory (modelled as one extracted entry) and deletes the archive.
When the download or the extraction fails, writes the literal fallback
`README.txt` note instead (on extraction failure the archive file is left
behind).  Returns the output directory. -/
def download_python_docs_correct (net : Net) (s : RunSt) : RunSt × FPath :=
  let s0 : RunSt := { s with fs := FS.mkdirp s.fs pythonDocsPath }
  if dirAvailable s0.fs pythonDocsExtractPath then (s0, pythonDocsPath)
  else
    match download_file_with_progress net pythonDocsUrl pythonDocsPath "python-docs.zip" s0 with
    | (s1, true) =>
      if net.extractOk then
        let fsx := (FS.mkdirp s1.fs pythonDocsExtractPath).writeFile pythonDocsExtractPath
          "index.html" (FileData.blob (net.nbytes pythonDocsUrl))
        let fsy := FS.removeFile fsx pythonDocsPath "python-docs.zip"
        ({ s1 with fs := fsy }, pythonDocsPath)
      else
        let fsz := FS.writeFile s1.fs pythonDocsPath "README.txt" (FileData.text 1)
        ({ s1 with fs := fsz }, pythonDocsPath)
    | (s1, false) =>
      let fsz := FS.writeFile s1.fs pythonDocsPath "README.txt" (FileData.text 1)
      ({ s1 with fs := fsz }, pythonDocsPath)

/-- `create_combined_dataset()`: creates `data/raw/combined` and writes
the literal strategy `README.md`; performs no network operation and
returns `None`. -/
def create_combined_dataset (s : RunSt) : RunSt :=
  let fs1 := (FS.mkdirp s.fs combinedPath).writeFile combinedPath "README.md"
    (FileData.text 1)
  { s with fs := fs1 }

/-- One complete, uninterrupted run of the combined script's routine
sequence (the `try` block of `main`), starting from filesystem `fs0`;
the module-level `BASE_DIR.mkdir(parents=True, exist_ok=True)` runs
first.  Returns the final run state. -/
def main_run (net : Net) (fs0 : FS) : RunSt :=
  let s0 : RunSt := { fs := FS.mkdirp fs0 BASE_DIR, calls := [] }
  let s1 := (download_codesearchnet_github s0).1
  let s2 := (download_stackoverflow_csv s1).1
  let s3 := (download_conala_correct_urls net s2).1
  let s4 := (verify_pytorch_tutorials s3).1
  let s5 := (download_python_docs_correct net s4).1
  create_combined_dataset s5

/-! ## The selector script: routines, dispatch and summary -/

/-- Python's `str.strip()`: remove leading and trailing whitespace. -/
def pyStrip (s : String) : String :=
  ⟨((s.data.dropWhile Char.isWhitespace).reverse.dropWhile Char.isWhitespace).reverse⟩

/-- Oracle for the selector script's hub operations, per dataset
identifier: whether `load_dataset` succeeds, and whether the subsequent
`save_to_disk` and sample preview succeed. -/
structure HubNet where
  loadOk : String → Bool
  saveOk : String → Bool

/-- Result of one selector routine: the boolean it returns, the
directories it created, and the hub identifiers it attempted to load
(its network fetches, in order). -/
structure SelResult where
  success : Bool
  dirsCreated : List FPath
  calls : List String
deriving DecidableEq

/-- Body shared by the three selector routines: `load_dataset(id, ...)`
first; on success `Path(save_path).mkdir(parents=True, exist_ok=True)`
then `save_to_disk` and a sample preview; any exception anywhere in the
body is caught and turned into `False`.  The directory is created exactly
when the load succeeded (the `mkdir` precedes the fallible save). -/
def hubRoutine (net : HubNet) (id : String) (save : FPath) : SelResult :=
  if net.loadOk id then
    if net.saveOk id then ⟨true, [save], [id]⟩ else ⟨false, [save], [id]⟩
  else
    ⟨false, [], [id]⟩

/-- `download_code_alpaca()`: loads `sahil2801/CodeAlpaca-20k` and saves
it under `./data/raw/code_alpaca`. -/
def download_code_alpaca (net : HubNet) : SelResult :=
  hubRoutine net "sahil2801/CodeAlpaca-20k" ["data", "raw", "code_alpaca"]

/-- `download_python_instructions()`: loads
`Iamtarun/python_code_instructions_18k_alpaca` and saves it under
`./data/raw/python_instructions`. -/
def download_python_instructions (net : HubNet) : SelResult :=
  hubRoutine net "Iamtarun/python_code_instructions_18k_alpaca"
    ["data", "raw", "python_instructions"]

/-- `download_mbpp()`: loads `mbpp` (config `sanitized`) and saves it
under `./data/raw/mbpp`. -/
def download_mbpp (net : HubNet) : SelResult :=
  hubRoutine net "mbpp" ["data", "raw", "mbpp"]

/-- Outcome of the selector script's single dispatch on the one line of
input it reads: either it ran its chosen routines, collecting the
`results` dict (in insertion order), the directories created and the hub
calls made, or it printed an error and exited with the given code.  The
script never re-prompts: the input is read exactly once. -/
inductive SelOutcome where
  | ran (results : List (String × Bool)) (dirsCreated : List FPath) (calls : List String)
  | exited (msg : String) (code : Nat)
deriving DecidableEq

/-- Directories created by the dispatch (none on the exit path, whose
branch performs no filesystem operation). -/
def SelOutcome.dirs : SelOutcome → List FPath
  | .ran _ ds _ => ds
  | .exited _ _ => []

/-- The `choice` dispatch of the selector script:
`choice = input(...).strip()`, then the `if/elif` chain over
`'1'`/`'2'`/`'3'`/`'4'`, with `print("Invalid choice"); sys.exit(1)` on
anything else. -/
def selector_dispatch (input : String) (net : HubNet) : SelOutcome :=
  let choice := pyStrip input
  if choice = "1" then
    let r := download_code_alpaca net
    .ran [("Code Alpaca", r.success)] r.dirsCreated r.calls
  else if choice = "2" then
    let r := download_python_instructions net
    .ran [("Python Instructions", r.success)] r.dirsCreated r.calls
  else if choice = "3" then
    let r := download_mbpp net
    .ran [("MBPP", r.success)] r.dirsCreated r.calls
  else if choice = "4" then
    let r1 := download_code_alpaca net
    let r2 := download_python_instructions net
    let r3 := download_mbpp net
    .ran [("Code Alpaca", r1.success), ("Python Instructions", r2.success),
          ("MBPP", r3.success)]
      (r1.dirsCreated ++ r2.dirsCreated ++ r3.dirsCreated)
      (r1.calls ++ r2.calls ++ r3.calls)
  else
    .exited "Invalid choice" 1

/-- `successful = sum(results.values())`: the number of successful
downloads of the run. -/
def selector_successful (results : List (String × Bool)) : Nat :=
  (results.filter (fun r => r.2)).length

/-- `total_datasets = 2 + successful`: two pre-existing datasets plus
the new downloads. -/
def selector_total_datasets (results : List (String × Bool)) : Nat :=
  2 + selector_successful results

/-- The selector script's success judgement: `total_datasets >= 3`. -/
def selector_success (results : List (String × Bool)) : Bool :=
  decide (3 ≤ selector_total_datasets results)

/-! ## Exception-level model of the acquisition routines

The claims about error wrapping are about which operations sit inside a
`try`/`except`.  Here each fallible primitive's outcome is an
`Except String Unit` (either it returns or it raises with a message), and
each routine is re-expressed at that level: a routine whose body is
wrapped returns a plain value for every outcome, while an unwrapped
operation's error propagates as the routine's own `Except.error`. -/

/-- Outcome of one fallible primitive operation. -/
abbrev PyOutcome := Except String Unit

/-- `True` when the primitive returned rather than raised. -/
def pyOk : PyOutcome → Bool
  | .ok _ => true
  | .error _ => false

/-- `download_file_with_progress` at the exception level: the GET (with
`raise_for_status` and the streaming loop) and the destination-file write
both sit inside its `try`, whose `except` prints and returns `False`; so
the helper returns a `Bool` for every outcome and never propagates. -/
def download_file_with_progress_exc (get : PyOutcome) (write : PyOutcome) : Bool :=
  match get with
  | .error _ => false
  | .ok _ => match write with
    | .error _ => false
    | .ok _ => true

/-- A selector routine (`download_code_alpaca` and its two siblings) at
the exception level: `load_dataset`, `mkdir`, `save_to_disk` and the
sample preview all sit inside the routine's `try`, whose `except` prints
and returns `False`; the routine never propagates. -/
def download_code_alpaca_exc (load : PyOutcome) (save : PyOutcome) : Bool :=
  match load with
  | .error _ => false
  | .ok _ => match save with
    | .error _ => false
    | .ok _ => true

/-- `download_stackoverflow_csv` at the exception level: its `mkdir`, the
sample-JSON write and the instructions write are NOT inside any
`try`/`except`, so an exception in any of them propagates out of the
routine; only when all three return does the routine return its output
directory. -/
def download_stackoverflow_csv_exc (mk w1 w2 : PyOutcome) : Except String FPath :=
  match mk with
  | .error e => .error e
  | .ok _ => match w1 with
    | .error e => .error e
    | .ok _ => match w2 with
      | .error e => .error e
      | .ok _ => .ok soPath

/-- The hub oracle under which every load fails. -/
def hubAllFail : HubNet := ⟨fun _ => false, fun _ => false⟩

/-- Example filesystem with exactly two of the six monitored directories
available (each holding one file). -/
def fsTwoAvail : FS :=
  [(csnPath, ⟨[("a", FileData.blob 1)]⟩), (soPath, ⟨[("b", FileData.blob 1)]⟩)]

/-- Example filesystem with exactly three of the six monitored
directories available. -/
def fsThreeAvail : FS :=
  [(csnPath, ⟨[("a", FileData.blob 1)]⟩), (soPath, ⟨[("b", FileData.blob 1)]⟩),
   (combinedPath, ⟨[("c", FileData.blob 1)]⟩)]

/-- Example filesystem in which the CoNaLa directory exists but is
empty. -/
def fsEmptyConala : FS := [(conalaPath, ⟨[]⟩)]

/-- Example filesystem in which the CoNaLa train file is already
present (with arbitrary content). -/
def fsConalaTrain : FS :=
  [(conalaPath, ⟨[("conala-train.json", FileData.blob 7)]⟩)]

/-! ## Helper lemmas about the filesystem operations -/

theorem dlookup_append_of_some {fs : FS} {p : FPath} {d : Dir}
    (l : FS) (h : FS.dlookup fs p = some d) : FS.dlookup (fs ++ l) p = some d := by
  induction fs with
  | nil => simp [FS.dlookup] at h
  | cons e fs ih =>
    simp only [FS.dlookup, List.cons_append] at h ⊢
    by_cases he : e.1 = p
    · simpa [he] using h
    · simp only [he, if_false] at h ⊢
      exact ih h

theorem dlookup_append_of_none {fs : FS} {p : FPath}
    (l : FS) (h : FS.dlookup fs p = none) : FS.dlookup (fs ++ l) p = FS.dlookup l p := by
  induction fs with
  | nil => simp
  | cons e fs ih =>
    simp only [FS.dlookup, List.cons_append] at h ⊢
    by_cases he : e.1 = p
    · simp [he] at h
    · simp only [he, if_false] at h ⊢
      exact ih h

theorem fileExists_addDir (fs : FS) (p q : FPath) (n : String) :
    FS.fileExists (FS.addDir fs p) q n = FS.fileExists fs q n := by
  unfold FS.addDir
  cases hp : FS.dlookup fs p with
  | some d => rfl
  | none =>
    unfold FS.fileExists
    cases hq : FS.dlookup fs q with
    | some d => rw [dlookup_append_of_some _ hq]
    | none =>
      rw [dlookup_append_of_none _ hq]
      by_cases hpq : p = q
      · subst hpq; simp [FS.dlookup]
      · simp [FS.dlookup, hpq]

theorem dirExists_addDir_mono {fs : FS} {q : FPath} (p : FPath)
    (h : FS.dirExists fs q = true) : FS.dirExists (FS.addDir fs p) q = true := by
  unfold FS.addDir
  cases hp : FS.dlookup fs p with
  | some d => exact h
  | none =>
    unfold FS.dirExists at h ⊢
    cases hq : FS.dlookup fs q with
    | some d => rw [dlookup_append_of_some _ hq]; rfl
    | none => rw [hq] at h; simp at h

theorem dirExists_addDir_self (fs : FS) (p : FPath) :
    FS.dirExists (FS.addDir fs p) p = true := by
  unfold FS.addDir
  cases hp : FS.dlookup fs p with
  | some d => unfold FS.dirExists; rw [hp]; rfl
  | none =>
    unfold FS.dirExists
    rw [dlookup_append_of_none _ hp]
    simp [FS.dlookup]

theorem foldl_preserve {α β : Type} (step : α → β → α) (P : α → Prop)
    (h : ∀ a b, P a → P (step a b)) :
    ∀ (l : List β) (a : α), P a → P (l.foldl step a) := by
  intro l
  induction l with
  | nil => intro a ha; exact ha
  | cons b l ih => intro a ha; exact ih _ (h a b ha)

theorem fileExists_foldl_addDir (l : List FPath) (fs : FS) (q : FPath) (n : String) :
    FS.fileExists (l.foldl FS.addDir fs) q n = FS.fileExists fs q n := by
  induction l generalizing fs with
  | nil => rfl
  | cons a l ih => rw [List.foldl_cons, ih, fileExists_addDir]

theorem fileExists_mkdirp (fs : FS) (p q : FPath) (n : String) :
    FS.fileExists (FS.mkdirp fs p) q n = FS.fileExists fs q n :=
  fileExists_foldl_addDir _ _ _ _

theorem dirExists_foldl_addDir_of_mem (l : List FPath) (q : FPath) :
    ∀ fs : FS, q ∈ l → FS.dirExists (l.foldl FS.addDir fs) q = true := by
  induction l with
  | nil => intro fs hq; cases hq
  | cons a l ih =>
    intro fs hq
    rw [List.foldl_cons]
    rcases List.mem_cons.mp hq with h | h
    · subst h
      exact foldl_preserve FS.addDir (fun fs => FS.dirExists fs q = true)
        (fun fs p h => dirExists_addDir_mono p h) l _ (dirExists_addDir_self fs q)
    · exact ih _ h

theorem mem_pathInits_self (a : String) (p : FPath) : (a :: p) ∈ pathInits (a :: p) := by
  induction p generalizing a with
  | nil => simp [pathInits]
  | cons b t ih =>
    simp only [pathInits, List.mem_cons]
    right
    exact List.mem_map_of_mem _ (ih b)

theorem dirExists_mkdirp_self (fs : FS) (a : String) (p : FPath) :
    FS.dirExists (FS.mkdirp fs (a :: p)) (a :: p) = true :=
  dirExists_foldl_addDir_of_mem _ _ fs (mem_pathInits_self a p)

theorem dlookup_mapVal (T : Dir → Dir) (fs : FS) (p q : FPath) :
    FS.dlookup (fs.map (fun e => if e.1 = p then (e.1, T e.2) else e)) q =
      if q = p then (FS.dlookup fs q).map T else FS.dlookup fs q := by
  induction fs with
  | nil => by_cases hqp : q = p <;> simp [FS.dlookup, hqp]
  | cons e fs ih =>
    by_cases hqp : q = p
    · subst hqp
      by_cases he : e.1 = q
      · simp [FS.dlookup, he, ih]
      · simp [FS.dlookup, he, ih]
    · have hpq : ¬(p = q) := fun h => hqp h.symm
      by_cases hep : e.1 = p
      · have heq : ¬(e.1 = q) := fun h => hqp (h ▸ hep ▸ rfl)
        simp [FS.dlookup, hep, heq, ih, hqp, hpq]
      · by_cases heq : e.1 = q
        · simp [FS.dlookup, hep, heq, ih, hqp, hpq]
        · simp [FS.dlookup, hep, heq, ih, hqp, hpq]

theorem dlookup_writeFile (fs : FS) (p : FPath) (n : String) (c : FileData) (q : FPath) :
    FS.dlookup (FS.writeFile fs p n c) q =
      if q = p then (FS.dlookup fs q).map (fun d => d.insertFile n c)
      else FS.dlookup fs q :=
  dlookup_mapVal (fun d => d.insertFile n c) fs p q

theorem dlookup_removeFile (fs : FS) (p : FPath) (n : String) (q : FPath) :
    FS.dlookup (FS.removeFile fs p n) q =
      if q = p then (FS.dlookup fs q).map (fun d => ⟨d.files.filter (fun f => f.1 ≠ n)⟩)
      else FS.dlookup fs q :=
  dlookup_mapVal (fun d => ⟨d.files.filter (fun f => f.1 ≠ n)⟩) fs p q

theorem insertFile_names (d : Dir) (n : String) (c : FileData) :
    (d.insertFile n c).files.map (fun f => f.1) =
      if (d.files.map (fun f => f.1)).contains n then d.files.map (fun f => f.1)
      else d.files.map (fun f => f.1) ++ [n] := by
  unfold Dir.insertFile
  by_cases h : (d.files.map (fun f => f.1)).contains n
  · simp only [h, if_true]
    rw [List.map_map]
    exact List.map_congr_left (fun f _ => by by_cases hf : f.1 = n <;> simp [hf])
  · rw [if_neg h, if_neg h]
    simp

theorem fileExists_writeFile_mono {fs : FS} {q : FPath} {m : String}
    (p : FPath) (n : String) (c : FileData)
    (h : FS.fileExists fs q m = true) :
    FS.fileExists (FS.writeFile fs p n c) q m = true := by
  unfold FS.fileExists at h ⊢
  rw [dlookup_writeFile]
  by_cases hqp : q = p
  · rw [if_pos hqp]
    cases hl : FS.dlookup fs q with
    | none => rw [hl] at h; simp at h
    | some d =>
      rw [hl] at h
      simp only [Option.map_some']
      rw [insertFile_names]
      by_cases hc : (d.files.map (fun f => f.1)).contains n
      · rw [if_pos hc]; exact h
      · rw [if_neg hc]
        have hm : m ∈ d.files.map (fun f => f.1) := by simpa using h
        simp [hm]
  · rw [if_neg hqp]; exact h

theorem fileExists_writeFile_self {fs : FS} {p : FPath} (n : String) (c : FileData)
    (h : FS.dirExists fs p = true) :
    FS.fileExists (FS.writeFile fs p n c) p n = true := by
  unfold FS.dirExists at h
  unfold FS.fileExists
  rw [dlookup_writeFile, if_pos rfl]
  cases hl : FS.dlookup fs p with
  | none => rw [hl] at h; simp at h
  | some d =>
    simp only [Option.map_some']
    rw [insertFile_names]
    by_cases hc : (d.files.map (fun f => f.1)).contains n
    · rw [if_pos hc]; exact hc
    · rw [if_neg hc]; simp

theorem filter_mapRep_head (n : String) (c : FileData) :
    ∀ l : List (String × FileData), n ∈ l.map (fun f => f.1) →
      (((l.map (fun f => if f.1 = n then (n, c) else f)).filter
          (fun f => f.1 == n)).head?).map (fun f => f.2) = some c := by
  intro l
  induction l with
  | nil => intro hm; simp at hm
  | cons f l ih =>
    intro hm
    simp only [List.map_cons]
    by_cases hf : f.1 = n
    · rw [if_pos hf, List.filter_cons_of_pos (by simp)]
      rfl
    · rw [if_neg hf, List.filter_cons_of_neg (by simp [hf])]
      simp only [List.map_cons, List.mem_cons] at hm
      rcases hm with hm | hm
      · exact absurd hm.symm hf
      · exact ih hm

theorem insertFile_content (d : Dir) (n : String) (c : FileData) :
    (((d.insertFile n c).files.filter (fun f => f.1 == n)).head?).map
      (fun f => f.2) = some c := by
  unfold Dir.insertFile
  by_cases h : (d.files.map (fun f => f.1)).contains n
  · rw [if_pos h]
    exact filter_mapRep_head n c d.files (by simpa using h)
  · rw [if_neg h]
    have hnm : n ∉ d.files.map (fun f => f.1) := by simpa using h
    have hfil : d.files.filter (fun f => f.1 == n) = [] := by
      rw [List.filter_eq_nil_iff]
      intro f hfmem
      simp only [beq_iff_eq]
      intro hfn
      exact hnm (by rw [← hfn]; exact List.mem_map_of_mem _ hfmem)
    rw [List.filter_append, hfil, List.nil_append,
      List.filter_cons_of_pos (by simp)]
    rfl

theorem fileContent_writeFile_self {fs : FS} {p : FPath} (n : String) (c : FileData)
    (h : FS.dirExists fs p = true) :
    FS.fileContent (FS.writeFile fs p n c) p n = some c := by
  unfold FS.dirExists at h
  unfold FS.fileContent
  rw [dlookup_writeFile, if_pos rfl]
  cases hl : FS.dlookup fs p with
  | none => rw [hl] at h; simp at h
  | some d => exact insertFile_content d n c

theorem fileExists_removeFile_ne {q p : FPath} (hq : ¬(q = p)) (fs : FS) (n m : String) :
    FS.fileExists (FS.removeFile fs p n) q m = FS.fileExists fs q m := by
  unfold FS.fileExists
  rw [dlookup_removeFile, if_neg hq]

theorem dirAvailable_of_fileExists {fs : FS} {p : FPath} {n : String}
    (h : FS.fileExists fs p n = true) : dirAvailable fs p = true := by
  unfold FS.fileExists at h
  unfold dirAvailable FS.dirExists FS.entries
  cases hl : FS.dlookup fs p with
  | none => rw [hl] at h; simp at h
  | some d =>
    rw [hl] at h
    have h' : (d.files.map (fun f => f.1)).contains n = true := h
    cases hd : d.files with
    | nil => rw [hd] at h'; simp at h'
    | cons f l => simp [hd]

theorem verifyStep_pos {fs : FS} {nd : String × FPath} (acc : Nat × Nat)
    (h : dirAvailable fs nd.2 = true) :
    verifyStep fs acc nd = (acc.1 + FS.treeSize fs nd.2, acc.2 + 1) := by
  unfold verifyStep
  rw [if_pos h]

theorem verifyStep_neg {fs : FS} {nd : String × FPath} (acc : Nat × Nat)
    (h : dirAvailable fs nd.2 = false) :
    verifyStep fs acc nd = acc := by
  unfold verifyStep
  rw [if_neg (by simp [h])]

theorem foldl_verifyStep (fs : FS) :
    ∀ (l : List (String × FPath)) (a b : Nat),
      l.foldl (verifyStep fs) (a, b) =
        (a + ((l.filter (fun nd => dirAvailable fs nd.2)).map
            (fun nd => FS.treeSize fs nd.2)).sum,
         b + (l.filter (fun nd => dirAvailable fs nd.2)).length) := by
  intro l
  induction l with
  | nil => intro a b; simp
  | cons nd l ih =>
    intro a b
    rw [List.foldl_cons]
    by_cases h : dirAvailable fs nd.2
    · rw [verifyStep_pos (a, b) h, ih, List.filter_cons, if_pos h]
      simp only [List.map_cons, List.sum_cons, List.length_cons, Prod.mk.injEq]
      constructor <;> omega
    · have h' : dirAvailable fs nd.2 = false := by simpa using h
      rw [verifyStep_neg (a, b) h', ih, List.filter_cons_of_neg (by simp [h'])]

theorem final_loop_spec (fs : FS) :
    final_loop fs =
      (((datasets.filter (fun nd => dirAvailable fs nd.2)).map
          (fun nd => FS.treeSize fs nd.2)).sum,
       availableCount fs) := by
  unfold final_loop availableCount
  rw [foldl_verifyStep]
  simp

/-! ## Lemmas about the combined script's routines -/

theorem conalaStep_skip (net : Net) (s : RunSt) (k : Nat) (fu : String × String)
    (h : FS.fileExists s.fs conalaPath fu.1 = true) :
    conalaStep net (s, k) fu = (s, k + 1) := by
  unfold conalaStep
  simp [h]

theorem conalaStep_fail (net : Net) (s : RunSt) (k : Nat) (fu : String × String)
    (h : FS.fileExists s.fs conalaPath fu.1 = false)
    (h1 : net.ok fu.2 = false) (h2 : net.ok (conalaAltBase ++ fu.1) = false) :
    conalaStep net (s, k) fu =
      ({ s with calls := (s.calls ++ [fu.2]) ++ [conalaAltBase ++ fu.1] }, k) := by
  unfold conalaStep download_file_with_progress
  simp [h, h1, h2]

theorem conalaStep_fileExists_mono (net : Net) (fu : String × String)
    {q : FPath} {m : String} (st : RunSt × Nat)
    (h : FS.fileExists st.1.fs q m = true) :
    FS.fileExists (conalaStep net st fu).1.fs q m = true := by
  unfold conalaStep download_file_with_progress
  by_cases he : FS.fileExists st.1.fs conalaPath fu.1
  · simp only [he, if_true]
    exact h
  · by_cases h1 : net.ok fu.2
    · simp only [he, Bool.false_eq_true, if_false, h1, if_true]
      exact fileExists_writeFile_mono _ _ _ h
    · by_cases h2 : net.ok (conalaAltBase ++ fu.1)
      · simp only [he, Bool.false_eq_true, if_false, h1, h2, if_true]
        exact fileExists_writeFile_mono _ _ _ h
      · simp only [he, Bool.false_eq_true, if_false, h1, h2]
        exact h

theorem conalaStep_calls_mono (net : Net) (fu : String × String) {u : String}
    (st : RunSt × Nat) (h : u ∈ st.1.calls) :
    u ∈ (conalaStep net st fu).1.calls := by
  unfold conalaStep download_file_with_progress
  by_cases he : FS.fileExists st.1.fs conalaPath fu.1
  · simp only [he, if_true]
    exact h
  · by_cases h1 : net.ok fu.2
    · simp only [he, Bool.false_eq_true, if_false, h1, if_true]
      exact List.mem_append_left _ h
    · by_cases h2 : net.ok (conalaAltBase ++ fu.1)
      · simp only [he, Bool.false_eq_true, if_false, h1, h2, if_true]
        exact List.mem_append_left _ (List.mem_append_left _ h)
      · simp only [he, Bool.false_eq_true, if_false, h1, h2]
        exact List.mem_append_left _ (List.mem_append_left _ h)

theorem conalaStep_attempts (net : Net) (fu : String × String) (st : RunSt × Nat)
    (h : FS.fileExists st.1.fs conalaPath fu.1 = false) :
    fu.2 ∈ (conalaStep net st fu).1.calls := by
  unfold conalaStep download_file_with_progress
  by_cases h1 : net.ok fu.2
  · simp only [h, Bool.false_eq_true, if_false, h1, if_true]
    exact List.mem_append_right _ (by simp)
  · by_cases h2 : net.ok (conalaAltBase ++ fu.1)
    · simp only [h, Bool.false_eq_true, if_false, h1, h2, if_true]
      exact List.mem_append_left _ (List.mem_append_right _ (by simp))
    · simp only [h, Bool.false_eq_true, if_false, h1, h2]
      exact List.mem_append_left _ (List.mem_append_right _ (by simp))

theorem csn_fileExists_mono (s : RunSt) {q : FPath} {m : String}
    (h : FS.fileExists s.fs q m = true) :
    FS.fileExists (download_codesearchnet_github s).1.fs q m = true := by
  unfold download_codesearchnet_github
  apply fileExists_writeFile_mono
  rw [fileExists_mkdirp]
  exact h

theorem so_fileExists_mono (s : RunSt) {q : FPath} {m : String}
    (h : FS.fileExists s.fs q m = true) :
    FS.fileExists (download_stackoverflow_csv s).1.fs q m = true := by
  unfold download_stackoverflow_csv
  apply fileExists_writeFile_mono
  apply fileExists_writeFile_mono
  rw [fileExists_mkdirp]
  exact h

theorem conala_fileExists_mono (net : Net) (s : RunSt) {q : FPath} {m : String}
    (h : FS.fileExists s.fs q m = true) :
    FS.fileExists (download_conala_correct_urls net s).1.fs q m = true := by
  unfold download_conala_correct_urls
  have h0 : FS.fileExists (FS.mkdirp s.fs conalaPath) q m = true := by
    rw [fileExists_mkdirp]; exact h
  have hfold := foldl_preserve (conalaStep net)
    (fun st : RunSt × Nat => FS.fileExists st.1.fs q m = true)
    (fun st fu hh => conalaStep_fileExists_mono net fu st hh) conalaFiles
    ({ s with fs := FS.mkdirp s.fs conalaPath }, 0) h0
  by_cases hz : (conalaFiles.foldl (conalaStep net)
      ({ s with fs := FS.mkdirp s.fs conalaPath }, 0)).2 = 0
  · simp only [hz, if_true]
    exact fileExists_writeFile_mono _ _ _ hfold
  · simp only [hz, if_false]
    exact hfold

theorem pytorch_fileExists_mono (s : RunSt) {q : FPath} {m : String}
    (h : FS.fileExists s.fs q m = true) :
    FS.fileExists (verify_pytorch_tutorials s).1.fs q m = true := by
  unfold verify_pytorch_tutorials
  by_cases ha : dirAvailable s.fs pytorchTutPath
  · simp only [ha, if_true]; exact h
  · simp only [ha, Bool.false_eq_true, if_false]; exact h

theorem pydocs_fileExists_mono (net : Net) (s : RunSt) {q : FPath} {m : String}
    (hq : ¬(q = pythonDocsPath))
    (h : FS.fileExists s.fs q m = true) :
    FS.fileExists (download_python_docs_correct net s).1.fs q m = true := by
  unfold download_python_docs_correct download_file_with_progress
  have h0 : FS.fileExists (FS.mkdirp s.fs pythonDocsPath) q m = true := by
    rw [fileExists_mkdirp]; exact h
  by_cases ha : dirAvailable (FS.mkdirp s.fs pythonDocsPath) pythonDocsExtractPath
  · simp only [ha, if_true]
    exact h0
  · by_cases hok : net.ok pythonDocsUrl
    · by_cases hex : net.extractOk
      · simp only [ha, Bool.false_eq_true, if_false, hok, if_true, hex]
        rw [fileExists_removeFile_ne hq]
        apply fileExists_writeFile_mono
        rw [fileExists_mkdirp]
        exact fileExists_writeFile_mono _ _ _ h0
      · simp only [ha, Bool.false_eq_true, if_false, hok, if_true, hex]
        exact fileExists_writeFile_mono _ _ _ (fileExists_writeFile_mono _ _ _ h0)
    · simp only [ha, Bool.false_eq_true, if_false, hok]
      exact fileExists_writeFile_mono _ _ _ h0

theorem combined_fileExists_mono (s : RunSt) {q : FPath} {m : String}
    (h : FS.fileExists s.fs q m = true) :
    FS.fileExists (create_combined_dataset s).fs q m = true := by
  unfold create_combined_dataset
  apply fileExists_writeFile_mono
  rw [fileExists_mkdirp]
  exact h

theorem availableCount_ge_three {fs : FS}
    (h1 : dirAvailable fs csnPath = true) (h2 : dirAvailable fs soPath = true)
    (h3 : dirAvailable fs combinedPath = true) : 3 ≤ availableCount fs := by
  unfold availableCount datasets
  cases hc : dirAvailable fs conalaPath <;>
    cases hp : dirAvailable fs pytorchTutPath <;>
      cases hd : dirAvailable fs pythonDocsPath <;>
        simp [List.filter, h1, h2, h3, hc, hp, hd]

theorem final_verification_of_ge {fs : FS} (h : 3 ≤ availableCount fs) :
    final_verification fs = true := by
  unfold final_verification
  rw [final_loop_spec]
  simpa using h

theorem csn_writes_readme (s : RunSt) :
    FS.fileExists (download_codesearchnet_github s).1.fs csnPath "README.txt" = true := by
  unfold download_codesearchnet_github
  exact fileExists_writeFile_self _ _ (dirExists_mkdirp_self _ _ _)

theorem so_writes_sample (s : RunSt) :
    FS.fileExists (download_stackoverflow_csv s).1.fs soPath "stackoverflow_sample.json" = true := by
  unfold download_stackoverflow_csv
  apply fileExists_writeFile_mono
  exact fileExists_writeFile_self _ _ (dirExists_mkdirp_self _ _ _)

theorem combined_writes_readme (s : RunSt) :
    FS.fileExists (create_combined_dataset s).fs combinedPath "README.md" = true := by
  unfold create_combined_dataset
  exact fileExists_writeFile_self _ _ (dirExists_mkdirp_self _ _ _)

theorem csn_ne_pydocs : ¬(csnPath = pythonDocsPath) := by decide

theorem so_ne_pydocs : ¬(soPath = pythonDocsPath) := by decide

/-- The three directories written unconditionally by the run, together
with the files placed in them; used by the invariant claim. -/
theorem main_run_unconditional_files (net : Net) (fs0 : FS) :
    FS.fileExists (main_run net fs0).fs csnPath "README.txt" = true
    ∧ FS.fileExists (main_run net fs0).fs soPath "stackoverflow_sample.json" = true
    ∧ FS.fileExists (main_run net fs0).fs combinedPath "README.md" = true := by
  unfold main_run
  refine ⟨?_, ?_, ?_⟩
  · apply combined_fileExists_mono
    apply pydocs_fileExists_mono _ _ csn_ne_pydocs
    apply pytorch_fileExists_mono
    apply conala_fileExists_mono
    apply so_fileExists_mono
    exact csn_writes_readme _
  · apply combined_fileExists_mono
    apply pydocs_fileExists_mono _ _ so_ne_pydocs
    apply pytorch_fileExists_mono
    apply conala_fileExists_mono
    exact so_writes_sample _
  · exact combined_writes_readme _

theorem foldl_preserve_mem {α β : Type} (step : α → β → α) (P : α → Prop)
    (l : List β) (h : ∀ a b, b ∈ l → P a → P (step a b)) :
    ∀ a : α, P a → P (l.foldl step a) := by
  induction l with
  | nil => intro a ha; exact ha
  | cons b l ih =>
    intro a ha
    rw [List.foldl_cons]
    exact ih (fun a' b' hb' ha' => h a' b' (List.mem_cons_of_mem b hb') ha') _
      (h a b (List.mem_cons_self b l) ha)

/-- Under an all-failing network, the per-file CoNaLa loop leaves the
filesystem untouched and counts zero successes, provided none of the
three destination files already exists. -/
theorem conala_fold_all_fail (net : Net) (s : RunSt)
    (hnet : ∀ u, net.ok u = false)
    (hf : ∀ fu ∈ conalaFiles, FS.fileExists (FS.mkdirp s.fs conalaPath) conalaPath fu.1 = false) :
    (conalaFiles.foldl (conalaStep net) ({ s with fs := FS.mkdirp s.fs conalaPath }, 0)).1.fs
        = FS.mkdirp s.fs conalaPath
    ∧ (conalaFiles.foldl (conalaStep net) ({ s with fs := FS.mkdirp s.fs conalaPath }, 0)).2 = 0 := by
  have key := foldl_preserve_mem (conalaStep net)
    (fun st : RunSt × Nat => st.1.fs = FS.mkdirp s.fs conalaPath ∧ st.2 = 0)
    conalaFiles
    (by
      intro st fu hfu hP
      have hfe : FS.fileExists st.1.fs conalaPath fu.1 = false := by
        rw [hP.1]; exact hf fu hfu
      have hstep := conalaStep_fail net st.1 st.2 fu hfe (hnet _) (hnet _)
      rw [show conalaStep net st fu =
        ({ st.1 with calls := (st.1.calls ++ [fu.2]) ++ [conalaAltBase ++ fu.1] }, st.2)
        from hstep]
      exact ⟨hP.1, hP.2⟩)
    ({ s with fs := FS.mkdirp s.fs conalaPath }, 0) ⟨rfl, rfl⟩
  exact key

/-- Two all-failing network oracles drive the run to the same state: the
byte-size and extraction components of the oracle are never consulted
when every GET fails. -/
theorem main_run_all_fail_eq (nb : String → Nat) (ex : Bool) :
    main_run ⟨fun _ => false, nb, ex⟩ [] = main_run netAllFail [] := rfl

/-- Writing a file named `n` never changes whether a file with a
different name `m` exists: the replace branch keeps the name list, and
the append branch adds only `n`. -/
theorem fileExists_writeFile_ne_name {m n : String} (hm : ¬(m = n))
    (fs : FS) (p q : FPath) (c : FileData) :
    FS.fileExists (FS.writeFile fs p n c) q m = FS.fileExists fs q m := by
  unfold FS.fileExists
  rw [dlookup_writeFile]
  by_cases hqp : q = p
  · rw [if_pos hqp]
    cases hl : FS.dlookup fs q with
    | none => rfl
    | some d =>
      simp only [Option.map_some']
      rw [insertFile_names]
      by_cases hc : (d.files.map (fun f => f.1)).contains n
      · rw [if_pos hc]
      · rw [if_neg hc]
        by_cases hcm : m ∈ d.files.map (fun f => f.1)
        · simp [hcm]
        · simp [hcm, hm]
  · rw [if_neg hqp]

/-- One iteration of the CoNaLa loop for file `fu` never changes whether
a file with a different name exists in the conala directory (the step
only ever writes `fu.1`). -/
theorem conalaStep_fileExists_ne (net : Net) (fu : String × String)
    (st : RunSt × Nat) {m : String} (hm : ¬(m = fu.1)) :
    FS.fileExists (conalaStep net st fu).1.fs conalaPath m
      = FS.fileExists st.1.fs conalaPath m := by
  unfold conalaStep download_file_with_progress
  by_cases he : FS.fileExists st.1.fs conalaPath fu.1
  · simp only [he, if_true]
  · by_cases h1 : net.ok fu.2
    · simp only [he, Bool.false_eq_true, if_false, h1, if_true]
      exact fileExists_writeFile_ne_name hm _ _ _ _
    · by_cases h2 : net.ok (conalaAltBase ++ fu.1)
      · simp only [he, Bool.false_eq_true, if_false, h1, h2, if_true]
        exact fileExists_writeFile_ne_name hm _ _ _ _
      · simp only [he, Bool.false_eq_true, if_false, h1, h2]

/-- For every file of the CoNaLa routine's fixed list whose destination
is absent at the start of the routine, the routine attempts a network
fetch of that file's primary URL: the three filenames are distinct, so
the earlier iterations (which only write their own files) cannot make a
later file appear before its iteration runs. -/
theorem conala_attempts_each (net : Net) (s : RunSt) (fu : String × String)
    (hfu : fu ∈ conalaFiles)
    (hex : FS.fileExists s.fs conalaPath fu.1 = false) :
    fu.2 ∈ (download_conala_correct_urls net s).1.calls := by
  have hex0 : FS.fileExists (FS.mkdirp s.fs conalaPath) conalaPath fu.1 = false := by
    rw [fileExists_mkdirp]
    exact hex
  have hmem : fu.2 ∈ (conalaFiles.foldl (conalaStep net)
      ({ s with fs := FS.mkdirp s.fs conalaPath }, 0)).1.calls := by
    simp only [conalaFiles, List.mem_cons, List.mem_singleton] at hfu
    rcases hfu with h | h | h | h
    · subst h
      simp only [conalaFiles, List.foldl_cons, List.foldl_nil]
      apply conalaStep_calls_mono
      apply conalaStep_calls_mono
      exact conalaStep_attempts net _ _ hex0
    · subst h
      simp only [conalaFiles, List.foldl_cons, List.foldl_nil]
      apply conalaStep_calls_mono
      apply conalaStep_attempts
      rw [conalaStep_fileExists_ne net _ _ (by decide)]
      exact hex0
    · subst h
      simp only [conalaFiles, List.foldl_cons, List.foldl_nil]
      apply conalaStep_attempts
      rw [conalaStep_fileExists_ne net _ _ (by decide),
        conalaStep_fileExists_ne net _ _ (by decide)]
      exact hex0
    · cases h
  simp only [download_conala_correct_urls]
  by_cases hz : (conalaFiles.foldl (conalaStep net)
      ({ s with fs := FS.mkdirp s.fs conalaPath }, 0)).2 = 0
  · simp only [hz, if_true]
    exact hmem
  · simp only [hz, if_false]
    exact hmem

/-! ## The claims -/

/-- C1: in both scripts the success judgement is true exactly when the
count of available sources is at least the fixed threshold 3 — in the
combined script the count is the number of available directories among
the six fixed ones, at the boundary a count of 2 yields failure and a
count of 3 yields success; in the selector script the count is 2
pre-existing datasets plus the number of successful downloads. -/
theorem verification_threshold :
    (∀ fs : FS, final_verification fs = true ↔ 3 ≤ availableCount fs)
    ∧ (∀ fs : FS, availableCount fs = 2 → final_verification fs = false)
    ∧ (∀ fs : FS, availableCount fs = 3 → final_verification fs = true)
    ∧ (∀ results : List (String × Bool),
        selector_success results = true ↔ 3 ≤ 2 + selector_successful results) := by
  have key : ∀ fs : FS, final_verification fs = true ↔ 3 ≤ availableCount fs := by
    intro fs
    unfold final_verification
    rw [final_loop_spec]
    simp
  refine ⟨key, ?_, ?_, ?_⟩
  · intro fs h
    cases hfv : final_verification fs with
    | false => rfl
    | true => have := (key fs).mp hfv; omega
  · intro fs h
    exact (key fs).mpr (by omega)
  · intro rs
    unfold selector_success selector_total_datasets
    simp

/-- Witness for C1: a filesystem with 2 available directories fails the
judgement, one with 3 passes it. -/
theorem verification_threshold_witness :
    final_verification fsTwoAvail = false ∧ final_verification fsThreeAvail = true :=
  ⟨verification_threshold.2.1 fsTwoAvail (by decide),
   verification_threshold.2.2.1 fsThreeAvail (by decide)⟩

/-- C2: each of the six fixed directories is counted available exactly
when it exists and has at least one entry; the loop's aggregate counts
and sums only the available directories, so an existing-but-empty
directory is unavailable and contributes nothing. -/
theorem verification_availability_rule :
    (∀ (fs : FS) (nd : String × FPath), nd ∈ datasets →
        dirAvailable fs nd.2 = (FS.dirExists fs nd.2 && !(FS.entries fs nd.2).isEmpty))
    ∧ (∀ fs : FS, final_loop fs =
        (((datasets.filter (fun nd => dirAvailable fs nd.2)).map
            (fun nd => FS.treeSize fs nd.2)).sum,
         (datasets.filter (fun nd => dirAvailable fs nd.2)).length))
    ∧ (∀ (fs : FS) (nd : String × FPath), nd ∈ datasets →
        FS.dirExists fs nd.2 = true → FS.entries fs nd.2 = [] →
        dirAvailable fs nd.2 = false) := by
  refine ⟨fun fs nd _ => rfl, ?_, ?_⟩
  · intro fs
    rw [final_loop_spec]
    rfl
  · intro fs nd _ hex hemp
    unfold dirAvailable
    rw [hemp]
    simp

/-- Witness for C2: the CoNaLa entry of the fixed list, over a
filesystem where its directory exists and is empty, is unavailable. -/
theorem verification_availability_rule_witness :
    ("CoNaLa", conalaPath) ∈ datasets
    ∧ dirAvailable fsEmptyConala conalaPath = false :=
  ⟨by decide,
   verification_availability_rule.2.2 fsEmptyConala ("CoNaLa", conalaPath)
     (by decide) (by decide) (by decide)⟩

/-- C3 counterexample: starting from an empty output root with every
network call failing, the run reports 5 of the 6 directories available —
not fewer than 3 as the claim states (only the PyTorch tutorials
directory is missing; the other five receive unconditional, synthetic or
fallback files). -/
theorem all_fail_run_not_below_threshold :
    availableCount (main_run netAllFail []).fs = 5
    ∧ ¬(availableCount (main_run netAllFail []).fs < 3) := by
  constructor <;> decide

/-- C3 as amended: on the combined script, starting from an output root
with none of the six directories present, if every network call fails
the run still terminates normally (the embedded run is a total function)
and the final summary reports 5 of the 6 directories as available, so
the success judgement is emitted. -/
theorem all_fail_run_reports_five (net : Net) (hnet : ∀ u, net.ok u = false) :
    availableCount (main_run net []).fs = 5
    ∧ final_verification (main_run net []).fs = true := by
  obtain ⟨ok, nb, ex⟩ := net
  have hok : ok = fun _ => false := funext hnet
  subst hok
  rw [main_run_all_fail_eq]
  constructor <;> decide

/-- Witness for C3's amended theorem, at the canonical all-failing
oracle. -/
theorem all_fail_run_reports_five_witness :
    availableCount (main_run netAllFail []).fs = 5
    ∧ final_verification (main_run netAllFail []).fs = true :=
  all_fail_run_reports_five netAllFail (fun _ => rfl)

/-- C4: after one complete, uninterrupted run of the combined script's
routine sequence, the codesearchnet, stackoverflow and combined
directories each contain at least one file — written with literal
content unconditionally, for every network oracle and every starting
filesystem — so the verification reporter counts at least 3 sources
available and its judgement is always success. -/
theorem run_unconditional_writes_success (net : Net) (fs0 : FS) :
    FS.fileExists (main_run net fs0).fs csnPath "README.txt" = true
    ∧ FS.fileExists (main_run net fs0).fs soPath "stackoverflow_sample.json" = true
    ∧ FS.fileExists (main_run net fs0).fs combinedPath "README.md" = true
    ∧ final_verification (main_run net fs0).fs = true := by
  have h := main_run_unconditional_files net fs0
  refine ⟨h.1, h.2.1, h.2.2, ?_⟩
  exact final_verification_of_ge (availableCount_ge_three
    (dirAvailable_of_fileExists h.1)
    (dirAvailable_of_fileExists h.2.1)
    (dirAvailable_of_fileExists h.2.2))

/-- C5: in the per-file CoNaLa loop, a file whose destination already
exists is skipped — the state (filesystem and network-call trace) is
returned unchanged, so no network call is made for that file — and the
success counter is incremented, whatever the existing file's content
(the state `s` and hence the file's payload are arbitrary). -/
theorem conala_existing_file_skipped (net : Net) (s : RunSt) (k : Nat)
    (fu : String × String) (h : FS.fileExists s.fs conalaPath fu.1 = true) :
    conalaStep net (s, k) fu = (s, k + 1) :=
  conalaStep_skip net s k fu h

/-- Witness for C5: a concrete state in which the CoNaLa train file
already exists is passed through untouched with the counter bumped. -/
theorem conala_existing_file_skipped_witness :
    FS.fileExists fsConalaTrain conalaPath "conala-train.json" = true
    ∧ conalaStep netAllFail (⟨fsConalaTrain, []⟩, 0)
        ("conala-train.json", "https://example.invalid/conala-train.json")
      = (⟨fsConalaTrain, []⟩, 1) :=
  ⟨by decide,
   conala_existing_file_skipped netAllFail ⟨fsConalaTrain, []⟩ 0
     ("conala-train.json", "https://example.invalid/conala-train.json") (by decide)⟩

/-- C6: when none of the three CoNaLa files is present and both the
primary and the alternate URL fail for every file (success count zero),
the routine writes the synthetic dataset file with exactly 50 literal
records into the conala directory and returns its output directory
normally (the embedded routine is a total function — this code path
raises nothing). -/
theorem conala_all_fail_synthesizes (net : Net) (s : RunSt)
    (hnet : ∀ u, net.ok u = false)
    (h1 : FS.fileExists s.fs conalaPath "conala-train.json" = false)
    (h2 : FS.fileExists s.fs conalaPath "conala-test.json" = false)
    (h3 : FS.fileExists s.fs conalaPath "conala-mined.jsonl" = false) :
    FS.fileContent (download_conala_correct_urls net s).1.fs conalaPath
        "conala-synthetic.json" = some (FileData.conalaJson conala_synthetic_data)
    ∧ conala_synthetic_data.length = 50
    ∧ (download_conala_correct_urls net s).2 = conalaPath := by
  have hf : ∀ fu ∈ conalaFiles,
      FS.fileExists (FS.mkdirp s.fs conalaPath) conalaPath fu.1 = false := by
    intro fu hfu
    rw [fileExists_mkdirp]
    simp only [conalaFiles, List.mem_cons, List.mem_singleton] at hfu
    rcases hfu with h | h | h | h
    · rw [h]; exact h1
    · rw [h]; exact h2
    · rw [h]; exact h3
    · cases h
  have hr := conala_fold_all_fail net s hnet hf
  simp only [download_conala_correct_urls]
  rw [hr.2]
  simp only [if_true]
  refine ⟨?_, by simp [conala_synthetic_data], by trivial⟩
  rw [hr.1]
  exact fileContent_writeFile_self _ _ (dirExists_mkdirp_self _ _ _)

/-- Witness for C6: from an empty filesystem under the all-failing
oracle, the synthetic 50-record file is produced. -/
theorem conala_all_fail_synthesizes_witness :
    FS.fileExists ([] : FS) conalaPath "conala-train.json" = false
    ∧ FS.fileContent (download_conala_correct_urls netAllFail ⟨[], []⟩).1.fs conalaPath
        "conala-synthetic.json" = some (FileData.conalaJson conala_synthetic_data) :=
  ⟨by decide,
   (conala_all_fail_synthesizes netAllFail ⟨[], []⟩ (fun _ => rfl)
     (by decide) (by decide) (by decide)).1⟩

/-- C7 counterexample: the Stack Overflow routine of the combined script
has no try/except around its filesystem writes — when its first file
write raises, the exception propagates out of the routine instead of
being caught and reported as a failure flag. -/
theorem stackoverflow_write_error_propagates :
    download_stackoverflow_csv_exc (Except.ok ()) (Except.error "disk full")
      (Except.ok ()) = Except.error "disk full" := rfl

/-- C7 as amended: the download helper and the selector script's
routines wrap their fallible operations so that every outcome yields a
plain boolean (failure is reported, never propagated); but the combined
script's Stack Overflow routine leaves its mkdir and its two file writes
unwrapped, and an exception in any of them propagates out of the
routine. -/
theorem exception_wrapping_amended :
    (∀ g w : PyOutcome, download_file_with_progress_exc g w = (pyOk g && pyOk w))
    ∧ (∀ l sv : PyOutcome, download_code_alpaca_exc l sv = (pyOk l && pyOk sv))
    ∧ (∀ (e : String) (w1 w2 : PyOutcome),
        download_stackoverflow_csv_exc (Except.error e) w1 w2 = Except.error e)
    ∧ (∀ (e : String) (w2 : PyOutcome),
        download_stackoverflow_csv_exc (Except.ok ()) (Except.error e) w2
          = Except.error e)
    ∧ (∀ e : String,
        download_stackoverflow_csv_exc (Except.ok ()) (Except.ok ())
          (Except.error e) = Except.error e) := by
  refine ⟨?_, ?_, ?_, ?_, ?_⟩
  · intro g w; cases g <;> cases w <;> rfl
  · intro l sv; cases l <;> cases sv <;> rfl
  · intro e w1 w2; rfl
  · intro e w2; rfl
  · intro e; rfl

/-- C8 counterexample: the CodeSearchNet routine of the combined script
performs no network fetch at all — its call trace stays empty — and it
returns its output directory path, not a boolean success flag. -/
theorem codesearchnet_no_network_call :
    (download_codesearchnet_github ⟨[], []⟩).1.calls = []
    ∧ (download_codesearchnet_github ⟨[], []⟩).2 = csnPath := ⟨rfl, rfl⟩

/-- C8 as amended: the selector script's three routines each perform
exactly one hub fetch and return a boolean success flag, and the
combined script's CoNaLa routine attempts a network fetch for each of
its three files that is not already present; but the CodeSearchNet,
Stack Overflow and combined-dataset routines of the combined script
perform no network operation at all and return their output directory
path (or nothing) rather than a boolean. -/
theorem network_fetch_amended :
    (∀ net : HubNet, (download_code_alpaca net).calls = ["sahil2801/CodeAlpaca-20k"]
      ∧ (download_code_alpaca net).success
          = (net.loadOk "sahil2801/CodeAlpaca-20k" && net.saveOk "sahil2801/CodeAlpaca-20k"))
    ∧ (∀ net : HubNet, (download_python_instructions net).calls
          = ["Iamtarun/python_code_instructions_18k_alpaca"]
      ∧ (download_python_instructions net).success
          = (net.loadOk "Iamtarun/python_code_instructions_18k_alpaca"
              && net.saveOk "Iamtarun/python_code_instructions_18k_alpaca"))
    ∧ (∀ net : HubNet, (download_mbpp net).calls = ["mbpp"]
      ∧ (download_mbpp net).success = (net.loadOk "mbpp" && net.saveOk "mbpp"))
    ∧ (∀ s : RunSt, (download_codesearchnet_github s).1.calls = s.calls
      ∧ (download_codesearchnet_github s).2 = csnPath)
    ∧ (∀ s : RunSt, (download_stackoverflow_csv s).1.calls = s.calls
      ∧ (download_stackoverflow_csv s).2 = soPath)
    ∧ (∀ s : RunSt, (create_combined_dataset s).calls = s.calls)
    ∧ (∀ (net : Net) (s : RunSt), ∀ fu ∈ conalaFiles,
        FS.fileExists s.fs conalaPath fu.1 = false →
        fu.2 ∈ (download_conala_correct_urls net s).1.calls) := by
  refine ⟨?_, ?_, ?_, fun s => ⟨rfl, rfl⟩, fun s => ⟨rfl, rfl⟩, fun s => rfl, ?_⟩
  · intro net
    unfold download_code_alpaca hubRoutine
    cases hl : net.loadOk "sahil2801/CodeAlpaca-20k" <;>
      cases hs : net.saveOk "sahil2801/CodeAlpaca-20k" <;> simp
  · intro net
    unfold download_python_instructions hubRoutine
    cases hl : net.loadOk "Iamtarun/python_code_instructions_18k_alpaca" <;>
      cases hs : net.saveOk "Iamtarun/python_code_instructions_18k_alpaca" <;> simp
  · intro net
    unfold download_mbpp hubRoutine
    cases hl : net.loadOk "mbpp" <;> cases hs : net.saveOk "mbpp" <;> simp
  · exact fun net s fu hfu hex => conala_attempts_each net s fu hfu hex

/-- Witness for C8's amended theorem, at the last file of the list: with
the mined file absent on an empty filesystem, the CoNaLa routine's trace
contains its primary URL. -/
theorem network_fetch_amended_witness :
    ("conala-mined.jsonl",
      "https://raw.githubusercontent.com/conala-corpus/conala-corpus/master/conala-mined.jsonl")
        ∈ conalaFiles
    ∧ FS.fileExists ([] : FS) conalaPath "conala-mined.jsonl" = false
    ∧ "https://raw.githubusercontent.com/conala-corpus/conala-corpus/master/conala-mined.jsonl"
        ∈ (download_conala_correct_urls netAllFail ⟨[], []⟩).1.calls :=
  ⟨by decide, by decide,
   network_fetch_amended.2.2.2.2.2.2 netAllFail ⟨[], []⟩
     ("conala-mined.jsonl",
      "https://raw.githubusercontent.com/conala-corpus/conala-corpus/master/conala-mined.jsonl")
     (by decide) (by decide)⟩

/-- C9 counterexample: when the hub load of MBPP fails, entering "3"
creates no directory at all — the mkdir sits after the load inside the
try block — so the claim's unconditional "creates ./data/raw/mbpp" is
false; the results collection still has exactly one entry keyed MBPP. -/
theorem option3_load_failure_creates_no_dir :
    selector_dispatch "3" hubAllFail = SelOutcome.ran [("MBPP", false)] [] ["mbpp"]
    ∧ ¬(["data", "raw", "mbpp"] ∈ (selector_dispatch "3" hubAllFail).dirs) := by
  constructor <;> decide

/-- C9 as amended: entering the trimmed input "3" always produces a
results collection with exactly one entry keyed "MBPP" (true when the
load and save succeed, false otherwise), and creates `./data/raw/mbpp`
exactly when the hub load succeeds (creation precedes the save, so a
save failure still leaves the directory created). -/
theorem option3_dispatch_amended (net : HubNet) :
    selector_dispatch "3" net =
      SelOutcome.ran [("MBPP", net.loadOk "mbpp" && net.saveOk "mbpp")]
        (if net.loadOk "mbpp" then [["data", "raw", "mbpp"]] else []) ["mbpp"] := by
  unfold selector_dispatch
  rw [show pyStrip "3" = "3" from rfl]
  cases hl : net.loadOk "mbpp" <;> cases hs : net.saveOk "mbpp" <;>
    simp [download_mbpp, hubRoutine, hl, hs]

/-- C10: any trimmed input other than "1", "2", "3" or "4" makes the
selector script print "Invalid choice" and exit with code 1, creating no
directory; the input is read exactly once (the embedded dispatch
consumes a single input string), so there is no re-prompt. -/
theorem invalid_choice_exits (input : String) (net : HubNet)
    (h1 : ¬(pyStrip input = "1")) (h2 : ¬(pyStrip input = "2"))
    (h3 : ¬(pyStrip input = "3")) (h4 : ¬(pyStrip input = "4")) :
    selector_dispatch input net = SelOutcome.exited "Invalid choice" 1
    ∧ (selector_dispatch input net).dirs = [] := by
  have heq : selector_dispatch input net = SelOutcome.exited "Invalid choice" 1 := by
    simp [selector_dispatch, h1, h2, h3, h4]
  exact ⟨heq, by rw [heq]; rfl⟩

/-- Witness for C10: the input "9" exits with code 1 and creates
nothing. -/
theorem invalid_choice_exits_witness :
    selector_dispatch "9" hubAllFail = SelOutcome.exited "Invalid choice" 1
    ∧ (selector_dispatch "9" hubAllFail).dirs = [] :=
  invalid_choice_exits "9" hubAllFail (by decide) (by decide) (by decide) (by decide)
